import Mathlib

/-
Verification of the process-supervision and pairing logic of the
moonlight-embedded launcher (resources/lib/utils.py and
resources/lib/moonlight.py).

The Python functions are shallowly embedded as pure Lean functions over an
explicit environment that supplies the results of every external call
(process polls, cancellation samples, non-blocking reads, communicate, ...).
Each function produces, besides its return value, the ordered trace of
observable UI / subprocess events it performed, so that claims about
"a dialog is closed", "a stop command is issued", etc. become statements
about that trace.
-/

namespace Moonlight

/-- Observable UI-side events performed by the supervising functions:
`create`/`update`/`close` are the `xbmcgui.DialogProgress` calls,
`okDialog` is a modal `xbmcgui.Dialog().ok(title, msg)` call, and
`terminate` records a `proc.terminate()` call on the supervised process. -/
inductive SinkEvent where
  | create (title msg : String)
  | update (pct : Nat) (msg : String)
  | okDialog (title msg : String)
  | close
  | terminate
deriving DecidableEq, Repr

/-- Observable subprocess-launching events: `runBlocking` is
`subprocess.check_output` (runs the command to completion before
returning), `spawn` is `subprocess.Popen` (starts the command and returns
immediately without waiting; the Bool is the `blockio` flag of
`subprocess_runner`), `errDialog` is the error dialog shown by
`subprocess_runner_blocking` when the command fails. -/
inductive CmdEvent where
  | runBlocking (cmd : List String)
  | spawn (cmd : List String) (blockio : Bool)
  | errDialog (title msg : String)
deriving DecidableEq, Repr

/-- Python substring test `needle in hay` on the underlying character
lists: true iff `needle` occurs contiguously inside `hay`. -/
def containsSub (needle : List Char) : List Char → Bool
  | [] => needle.isEmpty
  | c :: cs => (List.isPrefixOf needle (c :: cs)) || containsSub needle cs

/-- Python substring test `needle in hay` on strings. -/
def strContains (needle hay : String) : Bool :=
  containsSub needle.data hay.data

/-- Environment of `stop_old_container`: the outcome of the
`subprocess.check_output("docker ps")` call made by
`subprocess_runner_blocking`.  `Except.error msg` models a
`CalledProcessError` whose `.output` is `msg` (the function then shows an
error dialog and returns `None`); `Except.ok s` is the captured listing. -/
structure DockerEnv where
  psResult : Except String String

/-- Python `str.split(sep)` for a one-character separator, on character
lists: consecutive separators yield empty fields, like Python's split
with an explicit separator. -/
def splitChar (sep : Char) : List Char → List (List Char)
  | [] => [[]]
  | c :: cs =>
      match splitChar sep cs with
      | [] => [[]]
      | w :: ws => if c = sep then [] :: w :: ws else (c :: w) :: ws

/-- Python `s.split(" ")` on strings. -/
def pySplitSpace (s : String) : List String :=
  (splitChar ' ' s.data).map fun w => String.mk w

/-- Command template `"docker ps".split(" ")` used for the listing. -/
def psCmd : List String := pySplitSpace "docker ps"

/-- Command template `f"docker container stop {container}".split(" ")`. -/
def stopCmd (container : String) : List String :=
  pySplitSpace ("docker container stop " ++ container)

/-- Embedding of `utils.stop_old_container` (utils.py lines 48-57).
It first runs `docker ps` to completion via `subprocess_runner_blocking`;
if that call failed, an error dialog is shown and nothing is stopped
(`check` is `None`, hence falsy).  If the captured listing is truthy
(non-empty) and contains the container name as a substring, the stop
command is handed to `subprocess_runner`, i.e. started with
`subprocess.Popen` and NOT waited for (the returned process object is
discarded).  The result is the trace of command events performed. -/
def stop_old_container (env : DockerEnv) (container : String) : List CmdEvent :=
  match env.psResult with
  | Except.error msg =>
      [CmdEvent.runBlocking psCmd, CmdEvent.errDialog "Error during container check" msg]
  | Except.ok check =>
      if check ≠ "" ∧ strContains container check = true then
        [CmdEvent.runBlocking psCmd, CmdEvent.spawn (stopCmd container) true]
      else
        [CmdEvent.runBlocking psCmd]

/-- Environment of `wait_or_cancel`: the results of all external
interactions.  `procPresent` is the truthiness of `proc` (`None` or a
`Popen` object); `poll i` is the result of the i-th `proc.poll()` call
(`none` = still running, `some c` = exited with code `c`); `cancel i` is
the result of the i-th `pDialog.iscanceled()` call; `commResult` is the
result of `proc.communicate()[0].decode()` (`none` = the call raised);
`finalCode` is `proc.returncode` after `communicate` returns, used when
the loop did not itself observe the exit code; `termRaises` says whether
`proc.terminate()` raises. -/
structure WEnv where
  procPresent : Bool
  poll : Nat → Option Int
  cancel : Nat → Bool
  commResult : Option String
  finalCode : Int
  termRaises : Bool

/-- How the polling loop of `wait_or_cancel` was exited: the process was
absent (`proc` was `None`, the loop condition fails immediately), the k-th
poll observed an exit code, or the k-th cancellation sample was true. -/
inductive WExit where
  | noProc
  | exited (k : Nat) (code : Int)
  | cancelled (k : Nat)
deriving DecidableEq, Repr

/-- One step of `while proc and proc.poll() is None and not
pDialog.iscanceled():` (utils.py line 71), with fuel.  Iteration `i`
samples `poll i` first and, only if the process is still running,
`cancel i` (Python `and` short-circuits). -/
def wLoop (env : WEnv) : Nat → Nat → Option WExit
  | 0, _ => none
  | fuel + 1, i =>
      match env.poll i with
      | some c => some (WExit.exited i c)
      | none => if env.cancel i = true then some (WExit.cancelled i) else wLoop env fuel (i + 1)

/-- Exit of the polling loop of `wait_or_cancel`, including the
`proc`-absent short-circuit. -/
def wExitOf (env : WEnv) (fuel : Nat) : Option WExit :=
  if env.procPresent = true then wLoop env fuel 0 else some WExit.noProc

/-- Number of `pDialog.update(50, message)` heartbeat calls made before
the loop exited: one per completed iteration. -/
def hbCount : WExit → Nat
  | WExit.noProc => 0
  | WExit.exited k _ => k
  | WExit.cancelled k => k

/-- Index of the `pDialog.iscanceled()` sample taken on line 74 (after the
loop): the loop consumed cancellation samples `0..k-1` when it exited by a
poll at iteration `k`, and samples `0..k` when it exited by cancellation. -/
def wPostIdx : WExit → Nat
  | WExit.noProc => 0
  | WExit.exited k _ => k
  | WExit.cancelled k => k + 1

/-- Value of `proc.returncode` read on line 76 after `communicate`
returned: the code the loop's last poll observed when the loop exited by
a poll (the poll already stored it), and the eventual exit code
`finalCode` otherwise (`communicate` waits for the process to finish). -/
def wCode (env : WEnv) : WExit → Int
  | WExit.exited _ c => c
  | _ => env.finalCode

/-- Embedding of the `try:` block of `wait_or_cancel` (utils.py lines
73-88) given how the loop exited.  Returns the Python return value
`(exitcode, stdout)`, the events performed inside the block together with
the final `pDialog.close()` when reached, and a flag saying whether the
`except Exception: return (-1, "")` path was taken.  An absent `proc`
makes both `proc.communicate()` and `proc.terminate()` raise
(`AttributeError` on `None`), which that handler catches. -/
def wPost (env : WEnv) (title : String) (ex : WExit) :
    (Int × Option String) × List SinkEvent × Bool :=
  if env.cancel (wPostIdx ex) = true then
    if env.procPresent = true then
      if env.termRaises = true then
        ((-1, some ""), [SinkEvent.terminate], true)
      else
        ((1, none), [SinkEvent.terminate, SinkEvent.close], false)
    else
      ((-1, some ""), [], true)
  else
    if env.procPresent = true then
      match env.commResult with
      | none => ((-1, some ""), [], true)
      | some msg =>
          if wCode env ex = 0 then
            ((0, some msg), [SinkEvent.update 100 "Complete!", SinkEvent.close], false)
          else
            ((wCode env ex, some msg),
             [SinkEvent.okDialog ("Error during " ++ title.toLower) msg, SinkEvent.close],
             false)
    else
      ((-1, some ""), [], true)

/-- Embedding of `utils.wait_or_cancel` (utils.py lines 60-90).  Produces
`none` if the polling loop does not exit within `fuel` iterations;
otherwise `some (ret, events, faulted)` where `ret` is the Python return
value, `events` is the ordered trace of UI/process events (starting with
`pDialog.create(title, "")` and one `update(50, message)` heartbeat per
completed loop iteration), and `faulted` says whether the
`except Exception: return (-1, "")` path was taken. -/
def wait_or_cancel (env : WEnv) (fuel : Nat) (title message : String) :
    Option ((Int × Option String) × List SinkEvent × Bool) :=
  (wExitOf env fuel).map fun ex =>
    ((wPost env title ex).1,
     SinkEvent.create title "" ::
       (List.replicate (hbCount ex) (SinkEvent.update 50 message) ++ (wPost env title ex).2.1),
     (wPost env title ex).2.2)

/-- Literal part of the pairing-PIN regular expression
`r"Please enter the following PIN on the target PC: (\d+)"`. -/
def pinLit : List Char := "Please enter the following PIN on the target PC: ".data

/-- Attempt of the PIN pattern at the current position: the literal must
be a prefix here, immediately followed by at least one digit; greedy
`(\d+)` captures the maximal digit run. -/
def pinAt (s : List Char) : Option (List Char) :=
  if List.isPrefixOf pinLit s then
    let d := (s.drop pinLit.length).takeWhile (fun c => c.isDigit)
    if d.isEmpty then none else some d
  else none

/-- Leftmost match of the PIN pattern in a character list
(`re.search` semantics: try each start position left to right). -/
def searchPinL : List Char → Option (List Char)
  | [] => none
  | c :: cs =>
      match pinAt (c :: cs) with
      | some d => some d
      | none => searchPinL cs

/-- Embedding of `re.search(r"Please enter the following PIN on the
target PC: (\d+)", stdout)` (moonlight.py line 120), returning the
captured digit group of the leftmost match. -/
def searchPin (s : String) : Option String :=
  (searchPinL s.data).map fun d => String.mk d

/-- Literal of `re.search(r"Failed to pair to server: Already paired",
stdout)` (moonlight.py line 137); the pattern has no metacharacters, so
the search is a substring test. -/
def alreadyPairedLit : String := "Failed to pair to server: Already paired"

/-- Message `f"Please enter authentication code {code} on Gamestream
host"` displayed on PIN disclosure (moonlight.py lines 124-127). -/
def pinMsg (code : String) : String :=
  "Please enter authentication code " ++ code ++ " on Gamestream host"

/-- Informational dialog shown when the accumulated pairing output
contains the already-paired line (moonlight.py lines 138-140). -/
def apEvent : SinkEvent :=
  SinkEvent.okDialog "Pairing" "Gamestream credentials already exist for this host."

/-- Environment of the polling part of `pair`: `procPresent` is the
truthiness of the process returned by `run_moonlight` (`None` when no
host was detected); `poll i` and `cancel i` are the i-th
`proc.poll()` / `pDialog.iscanceled()` samples; `read i` is the i-th
non-blocking `proc.stdout.read().decode()` (`none` = the attempt raised
or produced no bytes, which the bare `except: pass` swallows). -/
structure PEnv where
  procPresent : Bool
  poll : Nat → Option Int
  cancel : Nat → Bool
  read : Nat → Option String

/-- Mutable state of the pairing poll loop: accumulated `stdout` buffer,
the `codeFlag` PIN-disclosure latch, and the trace of sink updates issued
so far inside the loop. -/
structure PState where
  buf : String
  codeFlag : Bool
  events : List SinkEvent
deriving DecidableEq, Repr

/-- How the pairing poll loop exited, carrying the loop state at exit:
either poll `k` observed an exit code, or cancellation sample `k` was
true. -/
inductive PExit where
  | exited (k : Nat) (code : Int) (st : PState)
  | cancelled (k : Nat) (st : PState)
deriving DecidableEq, Repr

/-- Chunk appended to the buffer by the read attempt of iteration `i`
(nothing when the non-blocking read raised). -/
def readD (env : PEnv) (i : Nat) : String := (env.read i).getD ""

/-- Body of one pairing loop iteration (moonlight.py lines 115-127):
append the freshly read chunk, then, if the latch is not set, scan the
whole accumulated buffer for the PIN pattern; on first match set the
latch and push the 50% disclosure update. -/
def pairStep (env : PEnv) (i : Nat) (st : PState) : PState :=
  let buf := st.buf ++ readD env i
  if st.codeFlag = true then ⟨buf, true, st.events⟩
  else
    match searchPin buf with
    | some d => ⟨buf, true, st.events ++ [SinkEvent.update 50 (pinMsg d)]⟩
    | none => ⟨buf, false, st.events⟩

/-- The fueled pairing poll loop `while proc and proc.poll() is None and
not pDialog.iscanceled():` (moonlight.py line 114), started with
`stdout = ""` and `codeFlag = False`. -/
def pairLoop (env : PEnv) : Nat → Nat → PState → Option PExit
  | 0, _, _ => none
  | fuel + 1, i, st =>
      match env.poll i with
      | some c => some (PExit.exited i c st)
      | none =>
          if env.cancel i = true then some (PExit.cancelled i st)
          else pairLoop env fuel (i + 1) (pairStep env i st)

/-- Loop state at exit. -/
def pexitState : PExit → PState
  | PExit.exited _ _ st => st
  | PExit.cancelled _ st => st

/-- Iteration at which the loop exited (iterations `0..k-1` ran fully). -/
def pexitTick : PExit → Nat
  | PExit.exited k _ _ => k
  | PExit.cancelled k _ => k

/-- Index of the post-loop `pDialog.iscanceled()` sample (moonlight.py
line 128). -/
def pexitPostIdx : PExit → Nat
  | PExit.exited k _ _ => k
  | PExit.cancelled k _ => k + 1

/-- Value of `proc.returncode` after the loop: it was set by the last
`poll()` call, so it is the observed exit code when the loop exited by a
poll, and `None` when the loop exited by cancellation. -/
def pexitCode : PExit → Option Int
  | PExit.exited _ c _ => some c
  | PExit.cancelled _ _ => none

/-- Post-loop part of `pair` (moonlight.py lines 128-140), for a present
process: if the fresh cancellation sample is false and `returncode == 0`,
push the 100% "Complete!" update (the `time.sleep(3)` has no observable
event); otherwise attempt `proc.terminate()` (any exception swallowed by
`except Exception: pass`).  Then close the dialog, and finally show the
informational dialog iff the accumulated output contains the
already-paired line. -/
def pairAssemble (env : PEnv) (ex : PExit) : List SinkEvent :=
  let branch :=
    if env.cancel (pexitPostIdx ex) = false ∧ pexitCode ex = some 0 then
      [SinkEvent.update 100 "Complete!"]
    else
      [SinkEvent.terminate]
  let ap :=
    if strContains alreadyPairedLit (pexitState ex).buf = true then [apEvent] else []
  SinkEvent.create "Pairing" "Launching pairing..." ::
    ((pexitState ex).events ++ branch ++ [SinkEvent.close] ++ ap)

/-- Embedding of the pairing session of `moonlight.pair` (moonlight.py
lines 109-140), after the user consented to the initial yes/no prompt.
Produces the trace of sink events, or `none` when the poll loop does not
exit within `fuel`.  When `run_moonlight` returned `None`, the loop body
never runs, `if proc and ...` is false, the `proc.terminate()` attempt
raises on `None` and is swallowed, the dialog is closed, and the
empty buffer cannot contain the already-paired line. -/
def pair (env : PEnv) (fuel : Nat) : Option (List SinkEvent) :=
  if env.procPresent = true then
    (pairLoop env fuel 0 ⟨"", false, []⟩).map (pairAssemble env)
  else
    some [SinkEvent.create "Pairing" "Launching pairing...", SinkEvent.close]

/-- Buffer accumulated before iteration `i` starts: concatenation of the
chunks delivered by the read attempts of iterations `0..i-1`. -/
def bufBefore (env : PEnv) : Nat → String
  | 0 => ""
  | i + 1 => bufBefore env i ++ readD env i

/-- Whether the buffer scanned at iteration `j` (i.e. after the read of
iteration `j`) matches the PIN pattern. -/
def tickMatch (env : PEnv) (j : Nat) : Bool :=
  (searchPin (bufBefore env (j + 1))).isSome

/-- Earliest iteration among `0..i-1` whose scanned buffer matched. -/
def firstMatch (env : PEnv) (i : Nat) : Option Nat :=
  (List.range i).find? (tickMatch env)

/-- Digit group extracted at iteration `j`. -/
def pinOf (env : PEnv) (j : Nat) : String :=
  (searchPin (bufBefore env (j + 1))).getD ""

/-- The PIN-disclosure updates issued by iterations `0..i-1`: exactly one
update, at 50% with the digits of the earliest matching buffer embedded,
when some iteration matched; none otherwise. -/
def pinEvents (env : PEnv) (i : Nat) : List SinkEvent :=
  match firstMatch env i with
  | some j => [SinkEvent.update 50 (pinMsg (pinOf env j))]
  | none => []

/-- Recognizer for 50% updates, the shape of every PIN-disclosure update
(the pairing loop pushes no other update). -/
def isUpd50 : SinkEvent → Bool
  | SinkEvent.update p _ => p == 50
  | _ => false

/-- Recognizer for `pDialog.update` events of any percentage. -/
def isUpdateEv : SinkEvent → Bool
  | SinkEvent.update _ _ => true
  | _ => false

/-- Test environment for the pairing session: the PIN line arrives split
mid-sentence across the non-blocking reads of the first two iterations,
and the process exits with code 0 at the third poll. -/
def c5env : PEnv :=
  ⟨true,
   fun i => if i < 2 then none else some 0,
   fun _ => false,
   fun i =>
     if i = 0 then some "Connecting...\nPlease enter the following PIN on the tar"
     else if i = 1 then some "get PC: 4821\n" else none⟩

/-- Exit reached by the pairing loop on `c5env`: process exit at
iteration 2, latch set, a single disclosure update issued. -/
def c5exit : PExit :=
  PExit.exited 2 0
    ⟨"Connecting...\nPlease enter the following PIN on the target PC: 4821\n", true,
     [SinkEvent.update 50 (pinMsg "4821")]⟩

/-- Test environment for the already-paired outcome: one read delivers
the already-paired line, then the process exits with code 1. -/
def c8env : PEnv :=
  ⟨true,
   fun i => if i = 0 then none else some 1,
   fun _ => false,
   fun i => if i = 0 then some "Failed to pair to server: Already paired\n" else none⟩

/-- Loop state at exit on `c8env`. -/
def c8state : PState := ⟨"Failed to pair to server: Already paired\n", false, []⟩

/-- Test environment showing the already-paired dialog also fires after a
clean exit (code 0). -/
def c10env : PEnv :=
  ⟨true,
   fun i => if i = 0 then none else some 0,
   fun _ => false,
   fun i => if i = 0 then some "Failed to pair to server: Already paired\n" else none⟩

/-- Loop state at exit on `c10env`. -/
def c10state : PState := ⟨"Failed to pair to server: Already paired\n", false, []⟩

/-- Embedding of the game-list filter of `moonlight.load_installed_games`
(moonlight.py line 98): keep the lines on which
`re.search('^\d+\.', game)` succeeds.  Since `^` anchors the unanchored
search at the start of the line, a line is kept iff it starts with one or
more digits immediately followed by a period. -/
def matchDigitsDotAux : List Char → Bool
  | [] => false
  | c :: cs => if c.isDigit then matchDigitsDotAux cs else c == '.'

/-- Matcher of `'^\d+\.'` at the start of a character list: at least one
digit, then (after the maximal digit run) a period. -/
def matchDigitsDot : List Char → Bool
  | [] => false
  | c :: cs => c.isDigit && matchDigitsDotAux cs

/-- Line filter applied by `load_installed_games` to each element of
`result.splitlines()`. -/
def matchGameLine (s : String) : Bool := matchDigitsDot s.data

/-- The list comprehension
`[game for game in result.splitlines() if re.search('^\d+\.', game)]`
(moonlight.py line 98), taking the already-split lines as input. -/
def load_installed_games_filter (lines : List String) : List String :=
  lines.filter matchGameLine

/-- Modelled from the spec's words for comparison ("Game-list lines: one
per line, pattern `<integer>. <game name>`; lines not matching this
pattern are discarded"): a line is kept iff it decomposes as a non-empty
run of digits, then a period, then anything. -/
def specGameLine (s : String) : Prop :=
  ∃ ds rest, s.data = ds ++ '.' :: rest ∧ ds ≠ [] ∧ ∀ c ∈ ds, c.isDigit = true

/-- Reaching an exit-by-poll: if the first `k` iterations see a running,
uncancelled process and poll `k` observes exit code `c`, the loop exits as
`exited (i + k) c` (given enough fuel). -/
theorem wLoop_exited (env : WEnv) (c : Int) :
    ∀ k fuel i, (∀ j, j < k → env.poll (i + j) = none ∧ env.cancel (i + j) = false) →
      env.poll (i + k) = some c → k < fuel →
      wLoop env fuel i = some (WExit.exited (i + k) c) := by
  intro k
  induction k with
  | zero =>
      intro fuel i _ hpoll hfuel
      match fuel, hfuel with
      | fuel + 1, _ =>
        rw [Nat.add_zero] at hpoll
        simp [wLoop, hpoll]
  | succ k ih =>
      intro fuel i h hpoll hfuel
      match fuel, hfuel with
      | fuel + 1, hfuel =>
        have h0 := h 0 (Nat.succ_pos k)
        rw [Nat.add_zero] at h0
        have hrec : wLoop env fuel (i + 1) = some (WExit.exited (i + 1 + k) c) := by
          apply ih
          · intro j hj
            have heq : i + 1 + j = i + (j + 1) := by omega
            rw [heq]
            exact h (j + 1) (by omega)
          · have heq : i + 1 + k = i + (k + 1) := by omega
            rw [heq]; exact hpoll
          · omega
        have heq : i + 1 + k = i + (k + 1) := by omega
        rw [heq] at hrec
        simp [wLoop, h0.1, h0.2, hrec]

/-- Reaching an exit-by-cancellation: if polls `0..k` all see a running
process, cancellation samples `0..k-1` are false and sample `k` is true,
the loop exits as `cancelled (i + k)` (given enough fuel). -/
theorem wLoop_cancelled (env : WEnv) :
    ∀ k fuel i, (∀ j, j ≤ k → env.poll (i + j) = none) →
      (∀ j, j < k → env.cancel (i + j) = false) →
      env.cancel (i + k) = true → k < fuel →
      wLoop env fuel i = some (WExit.cancelled (i + k)) := by
  intro k
  induction k with
  | zero =>
      intro fuel i hpoll _ hcan hfuel
      match fuel, hfuel with
      | fuel + 1, _ =>
        have h0 := hpoll 0 (Nat.le_refl 0)
        rw [Nat.add_zero] at h0 hcan
        simp [wLoop, h0, hcan]
  | succ k ih =>
      intro fuel i hpoll hcan hck hfuel
      match fuel, hfuel with
      | fuel + 1, hfuel =>
        have h0 := hpoll 0 (Nat.zero_le _)
        rw [Nat.add_zero] at h0
        have hc0 := hcan 0 (Nat.succ_pos k)
        rw [Nat.add_zero] at hc0
        have hrec : wLoop env fuel (i + 1) = some (WExit.cancelled (i + 1 + k)) := by
          apply ih
          · intro j hj
            have heq : i + 1 + j = i + (j + 1) := by omega
            rw [heq]
            exact hpoll (j + 1) (by omega)
          · intro j hj
            have heq : i + 1 + j = i + (j + 1) := by omega
            rw [heq]
            exact hcan (j + 1) (by omega)
          · have heq : i + 1 + k = i + (k + 1) := by omega
            rw [heq]; exact hck
          · omega
        have heq : i + 1 + k = i + (k + 1) := by omega
        rw [heq] at hrec
        simp [wLoop, h0, hc0, hrec]

/-- Heartbeat updates all pass the update recognizer. -/
theorem filter_isUpdate_replicate (p : SinkEvent → Bool) (e : SinkEvent) (hp : p e = true) :
    ∀ k, (List.replicate k e).filter p = List.replicate k e := by
  intro k
  induction k with
  | zero => rfl
  | succ k ih => simp [List.replicate, List.filter, hp, ih]

/-- Unfolding of the earliest matching tick by one iteration. -/
theorem firstMatch_succ (env : PEnv) (i : Nat) :
    firstMatch env (i + 1) =
      match firstMatch env i with
      | some j => some j
      | none => if tickMatch env i = true then some i else none := by
  unfold firstMatch
  rw [List.range_succ, List.find?_append]
  cases h : (List.range i).find? (tickMatch env) with
  | none =>
      cases ht : tickMatch env i with
      | false => simp [List.find?, ht, Option.or]
      | true => simp [List.find?, ht, Option.or]
  | some j => simp [Option.or]

/-- The loop-body step preserves the pairing-loop invariant: the buffer is
the concatenation of all chunks read so far, the latch is set iff some
scanned buffer matched, and the issued updates are exactly the single
disclosure of the earliest match (if any). -/
theorem pairStep_invariant (env : PEnv) (i : Nat) (st : PState)
    (hbuf : st.buf = bufBefore env i)
    (hflag : st.codeFlag = (firstMatch env i).isSome)
    (hev : st.events = pinEvents env i) :
    (pairStep env i st).buf = bufBefore env (i + 1) ∧
    (pairStep env i st).codeFlag = (firstMatch env (i + 1)).isSome ∧
    (pairStep env i st).events = pinEvents env (i + 1) := by
  have hb : st.buf ++ readD env i = bufBefore env (i + 1) := by
    rw [hbuf]; rfl
  cases hcf : st.codeFlag with
  | true =>
      rw [hcf] at hflag
      obtain ⟨j, hj⟩ := Option.isSome_iff_exists.mp hflag.symm
      have hsucc : firstMatch env (i + 1) = some j := by
        rw [firstMatch_succ, hj]
      refine ⟨?_, ?_, ?_⟩
      · simp [pairStep, hcf, hb]
      · simp [pairStep, hcf, hsucc]
      · simp [pairStep, hcf, hev, pinEvents, hj, hsucc]
  | false =>
      rw [hcf] at hflag
      have hnone : firstMatch env i = none := by
        cases h : firstMatch env i with
        | none => rfl
        | some j => rw [h] at hflag; simp at hflag
      have hev0 : st.events = [] := by rw [hev]; simp [pinEvents, hnone]
      cases hs : searchPin (st.buf ++ readD env i) with
      | some d =>
          have hs2 : searchPin (bufBefore env (i + 1)) = some d := by
            rw [← hb]; exact hs
          have ht : tickMatch env i = true := by
            unfold tickMatch
            rw [hs2]; rfl
          have hsucc : firstMatch env (i + 1) = some i := by
            rw [firstMatch_succ, hnone]; simp [ht]
          have hpin : pinOf env i = d := by
            unfold pinOf
            rw [hs2]; rfl
          refine ⟨?_, ?_, ?_⟩
          · simp [pairStep, hcf, hs, hb, hs2]
          · simp [pairStep, hcf, hs, hb, hs2, hsucc]
          · simp [pairStep, hcf, hs, hb, hs2, hev0, pinEvents, hsucc, hpin]
      | none =>
          have hs2 : searchPin (bufBefore env (i + 1)) = none := by
            rw [← hb]; exact hs
          have ht : tickMatch env i = false := by
            unfold tickMatch
            rw [hs2]; rfl
          have hsucc : firstMatch env (i + 1) = none := by
            rw [firstMatch_succ, hnone]; simp [ht]
          refine ⟨?_, ?_, ?_⟩
          · simp [pairStep, hcf, hs, hb, hs2]
          · simp [pairStep, hcf, hs, hb, hs2, hsucc]
          · simp [pairStep, hcf, hs, hb, hs2, hev0, pinEvents, hsucc]

/-- Invariant of the whole pairing poll loop: whatever state the loop
carries at exit satisfies the buffer / latch / single-disclosure
invariant at the exit tick. -/
theorem pairLoop_invariant (env : PEnv) :
    ∀ fuel i st ex,
      st.buf = bufBefore env i →
      st.codeFlag = (firstMatch env i).isSome →
      st.events = pinEvents env i →
      pairLoop env fuel i st = some ex →
      (pexitState ex).buf = bufBefore env (pexitTick ex) ∧
      (pexitState ex).codeFlag = (firstMatch env (pexitTick ex)).isSome ∧
      (pexitState ex).events = pinEvents env (pexitTick ex) := by
  intro fuel
  induction fuel with
  | zero => intro i st ex _ _ _ h; simp [pairLoop] at h
  | succ fuel ih =>
      intro i st ex hbuf hflag hev h
      rw [pairLoop] at h
      cases hpoll : env.poll i with
      | some c =>
          rw [hpoll] at h
          simp at h
          subst h
          exact ⟨hbuf, hflag, hev⟩
      | none =>
          rw [hpoll] at h
          by_cases hc : env.cancel i = true
          · rw [if_pos hc] at h
            simp at h
            subst h
            exact ⟨hbuf, hflag, hev⟩
          · rw [if_neg hc] at h
            obtain ⟨h1, h2, h3⟩ := pairStep_invariant env i st hbuf hflag hev
            exact ih (i + 1) (pairStep env i st) ex h1 h2 h3 h

/-- Initial state of the pairing loop satisfies the invariant at tick 0. -/
theorem pairLoop_invariant_start (env : PEnv) (fuel : Nat) (ex : PExit)
    (h : pairLoop env fuel 0 ⟨"", false, []⟩ = some ex) :
    (pexitState ex).buf = bufBefore env (pexitTick ex) ∧
    (pexitState ex).codeFlag = (firstMatch env (pexitTick ex)).isSome ∧
    (pexitState ex).events = pinEvents env (pexitTick ex) :=
  pairLoop_invariant env fuel 0 ⟨"", false, []⟩ ex rfl rfl rfl h

/-- Shape of the try-block outcome: either the exception path was taken,
or the dialog was closed inside the block. -/
theorem wPost_shape (env : WEnv) (t : String) (ex : WExit) :
    (wPost env t ex).2.2 = true ∨ SinkEvent.close ∈ (wPost env t ex).2.1 := by
  unfold wPost
  repeat' split
  all_goals simp_all

/-- When the post-loop cancellation sample is false, the try block never
takes the cancellation branch: the returned stdout is never `None` and no
termination request is issued. -/
theorem wPost_completion (env : WEnv) (t : String) (ex : WExit)
    (h : env.cancel (wPostIdx ex) = false) :
    (wPost env t ex).1.2 ≠ none ∧ SinkEvent.terminate ∉ (wPost env t ex).2.1 := by
  unfold wPost
  rw [if_neg (by rw [h]; exact Bool.false_ne_true)]
  repeat' split
  all_goals simp_all

/-- C1 counterexample: a run of `wait_or_cancel` in which the
`communicate`/`decode` step raises (the internal-fault path returning
`(-1, "")`) ends with the progress dialog NOT closed: the event trace is
just the `create`, with no `close`. -/
theorem c1_counterexample :
    wait_or_cancel ⟨true, fun _ => some 5, fun _ => false, none, 5, false⟩ 3
        "Installation" "msg" =
      some ((-1, some ""), [SinkEvent.create "Installation" ""], true) ∧
    SinkEvent.close ∉ [SinkEvent.create "Installation" ""] := by
  decide

/-- C1 (amended): the progress sink is closed on the success, non-zero
exit and cancellation exit paths, i.e. on every run of `wait_or_cancel`
that does not take the `except Exception: return (-1, "")` path; on that
internal-fault path the function returns without closing the sink. -/
theorem wait_or_cancel_closes_unless_fault (env : WEnv) (fuel : Nat) (t m : String)
    (r : Int × Option String) (evs : List SinkEvent)
    (h : wait_or_cancel env fuel t m = some (r, evs, false)) :
    SinkEvent.close ∈ evs := by
  unfold wait_or_cancel at h
  cases hex : wExitOf env fuel with
  | none => rw [hex] at h; simp at h
  | some ex =>
      rw [hex] at h
      simp only [Option.map_some', Option.some.injEq, Prod.mk.injEq] at h
      obtain ⟨-, hevs, hfault⟩ := h
      rcases wPost_shape env t ex with hfa | hclose
      · rw [hfault] at hfa; exact absurd hfa (by simp)
      · rw [← hevs]
        simp only [List.mem_cons, List.mem_append]
        right; right
        exact hclose

/-- C1 witness: on a clean success run the theorem yields that `close`
occurs in the trace. -/
theorem c1_witness :
    SinkEvent.close ∈ [SinkEvent.create "t" "", SinkEvent.update 100 "Complete!",
      SinkEvent.close] :=
  wait_or_cancel_closes_unless_fault ⟨true, fun _ => some 0, fun _ => false, some "done", 0,
      false⟩ 1 "t" "m" (0, some "done")
    [SinkEvent.create "t" "", SinkEvent.update 100 "Complete!", SinkEvent.close] (by decide)

/-- C3 counterexample: with `proc = None`, `wait_or_cancel` does skip the
poll loop, but the sink is NOT closed: the `proc.communicate()` attribute
access raises, the handler returns `(-1, "")`, and the trace contains no
`close`. -/
theorem c3_counterexample :
    wait_or_cancel ⟨false, fun _ => none, fun _ => false, none, 0, false⟩ 2 "List" "m" =
      some ((-1, some ""), [SinkEvent.create "List" ""], true) ∧
    SinkEvent.close ∉ [SinkEvent.create "List" ""] := by
  decide

/-- C3 (amended): if `proc` is absent, `wait_or_cancel` short-circuits
without entering the poll loop (no heartbeat update is pushed), but it
does not close the sink: whatever the cancellation sample says, the
subsequent call on `None` raises and the function returns `(-1, "")` via
the fault path, leaving only the `create` event in the trace. -/
theorem wait_or_cancel_absent_proc (env : WEnv) (fuel : Nat) (t m : String)
    (hp : env.procPresent = false) :
    wait_or_cancel env fuel t m =
      some ((-1, some ""), [SinkEvent.create t ""], true) := by
  cases hc : env.cancel 0 <;>
    simp [wait_or_cancel, wExitOf, wPost, wPostIdx, hbCount, hp, hc]

/-- C3 witness: the amended theorem applied to a concrete absent-process
environment. -/
theorem c3_witness :
    wait_or_cancel ⟨false, fun _ => none, fun _ => true, none, 0, true⟩ 4 "Pairing" "m" =
      some ((-1, some ""), [SinkEvent.create "Pairing" ""], true) :=
  wait_or_cancel_absent_proc ⟨false, fun _ => none, fun _ => true, none, 0, true⟩ 4
    "Pairing" "m" rfl

/-- C4 counterexample: the loop exits because the first poll observes
process completion (`exited 0 0`), yet a cancellation arriving at the
fresh post-loop `iscanceled()` sample makes the function take the
cancellation branch and return `(1, None)`. -/
theorem c4_counterexample :
    wExitOf ⟨true, fun _ => some 0, fun _ => true, some "out", 0, false⟩ 5 =
      some (WExit.exited 0 0) ∧
    wait_or_cancel ⟨true, fun _ => some 0, fun _ => true, some "out", 0, false⟩ 5 "T" "m" =
      some ((1, none),
        [SinkEvent.create "T" "", SinkEvent.terminate, SinkEvent.close], false) := by
  decide

/-- C4 (amended): the completion-versus-cancellation branch is decided by
a fresh cancellation sample taken after the loop; if the loop exited
because the process completed AND that post-loop sample is not cancelled,
the completion branch is taken: the result is never the `(1, None)`
sentinel and no termination request is issued.  A cancellation signaled
between the loop's observation of completion and the post-loop sample
does take effect. -/
theorem wait_or_cancel_completion_branch (env : WEnv) (fuel k : Nat) (c : Int)
    (t m : String)
    (hex : wExitOf env fuel = some (WExit.exited k c))
    (hc : env.cancel k = false) :
    ∃ r evs f, wait_or_cancel env fuel t m = some (r, evs, f) ∧
      r ≠ ((1 : Int), (none : Option String)) ∧ SinkEvent.terminate ∉ evs := by
  have hpost := wPost_completion env t (WExit.exited k c) (by simpa [wPostIdx] using hc)
  refine ⟨(wPost env t (WExit.exited k c)).1,
    SinkEvent.create t "" ::
      (List.replicate (hbCount (WExit.exited k c)) (SinkEvent.update 50 m) ++
        (wPost env t (WExit.exited k c)).2.1),
    (wPost env t (WExit.exited k c)).2.2, ?_, ?_, ?_⟩
  · unfold wait_or_cancel
    rw [hex]
    rfl
  · intro heq
    exact hpost.1 (by rw [heq])
  · intro hmem
    simp only [List.mem_cons, List.mem_append, List.mem_replicate] at hmem
    rcases hmem with h | h | h
    · exact absurd h (by simp)
    · exact absurd h.2 (by simp)
    · exact hpost.2 h

/-- C4 witness: the amended theorem applied to a run whose first poll
observes exit code 0 with no cancellation. -/
theorem c4_witness :
    ∃ r evs f,
      wait_or_cancel ⟨true, fun _ => some 0, fun _ => false, some "x", 0, false⟩ 1 "T" "m" =
        some (r, evs, f) ∧
      r ≠ ((1 : Int), (none : Option String)) ∧ SinkEvent.terminate ∉ evs :=
  wait_or_cancel_completion_branch ⟨true, fun _ => some 0, fun _ => false, some "x", 0,
    false⟩ 1 0 0 "T" "m" (by decide) rfl

/-- C6: if the sink reports cancelled before the process exits (the
cancellation sample turns true while every poll still reports a running
process, and stays true at the post-loop sample), and `terminate` does not
itself raise, then `wait_or_cancel` returns the `(1, None)` sentinel and a
termination request is issued to the process. -/
theorem wait_or_cancel_cancel_terminates (env : WEnv) (fuel k : Nat) (t m : String)
    (hp : env.procPresent = true)
    (hpoll : ∀ j, j ≤ k → env.poll j = none)
    (hcan : ∀ j, j < k → env.cancel j = false)
    (hck : env.cancel k = true)
    (hck1 : env.cancel (k + 1) = true)
    (ht : env.termRaises = false)
    (hf : k < fuel) :
    wait_or_cancel env fuel t m =
      some ((1, none),
        SinkEvent.create t "" :: (List.replicate k (SinkEvent.update 50 m) ++
          [SinkEvent.terminate, SinkEvent.close]), false) ∧
    SinkEvent.terminate ∈
      SinkEvent.create t "" :: (List.replicate k (SinkEvent.update 50 m) ++
        [SinkEvent.terminate, SinkEvent.close]) := by
  have hex : wExitOf env fuel = some (WExit.cancelled k) := by
    unfold wExitOf
    rw [if_pos hp]
    simpa using wLoop_cancelled env k fuel 0 (by simpa using hpoll) (by simpa using hcan)
      (by simpa using hck) hf
  constructor
  · unfold wait_or_cancel
    rw [hex]
    simp [wPost, wPostIdx, hbCount, hp, hck1, ht]
  · simp

/-- C6 witness: immediate cancellation of a still-running process. -/
theorem c6_witness :
    wait_or_cancel ⟨true, fun _ => none, fun _ => true, some "x", 0, false⟩ 1 "Update" "m" =
      some ((1, none),
        SinkEvent.create "Update" "" :: (List.replicate 0 (SinkEvent.update 50 "m") ++
          [SinkEvent.terminate, SinkEvent.close]), false) ∧
    SinkEvent.terminate ∈
      SinkEvent.create "Update" "" :: (List.replicate 0 (SinkEvent.update 50 "m") ++
        [SinkEvent.terminate, SinkEvent.close]) :=
  wait_or_cancel_cancel_terminates ⟨true, fun _ => none, fun _ => true, some "x", 0, false⟩
    1 0 "Update" "m" rfl (fun _ _ => rfl) (fun j hj => absurd hj (Nat.not_lt_zero j))
    rfl rfl rfl Nat.zero_lt_one

/-- C7: a process that exits with code 0 before any cancellation makes
`wait_or_cancel` return `(0, output)`, and the final `update` call on the
sink in the event trace reports 100% ("Complete!"). -/
theorem wait_or_cancel_success_complete (env : WEnv) (fuel k : Nat) (out t m : String)
    (hp : env.procPresent = true)
    (hrun : ∀ j, j < k → env.poll j = none ∧ env.cancel j = false)
    (hk : env.poll k = some 0)
    (hc : env.cancel k = false)
    (hcomm : env.commResult = some out)
    (hf : k < fuel) :
    wait_or_cancel env fuel t m =
      some ((0, some out),
        SinkEvent.create t "" :: (List.replicate k (SinkEvent.update 50 m) ++
          [SinkEvent.update 100 "Complete!", SinkEvent.close]), false) ∧
    ((SinkEvent.create t "" :: (List.replicate k (SinkEvent.update 50 m) ++
        [SinkEvent.update 100 "Complete!", SinkEvent.close])).filter isUpdateEv).getLast? =
      some (SinkEvent.update 100 "Complete!") := by
  have hex : wExitOf env fuel = some (WExit.exited k 0) := by
    unfold wExitOf
    rw [if_pos hp]
    simpa using wLoop_exited env 0 k fuel 0 (by simpa using hrun) (by simpa using hk) hf
  constructor
  · unfold wait_or_cancel
    rw [hex]
    simp [wPost, wPostIdx, wCode, hbCount, hp, hc, hcomm]
  · rw [List.filter_cons]
    have h1 : isUpdateEv (SinkEvent.create t "") = false := rfl
    rw [h1]
    simp only [Bool.false_eq_true, if_false]
    rw [List.filter_append]
    rw [filter_isUpdate_replicate isUpdateEv (SinkEvent.update 50 m) rfl k]
    have h2 : [SinkEvent.update 100 "Complete!", SinkEvent.close].filter isUpdateEv =
        [SinkEvent.update 100 "Complete!"] := rfl
    rw [h2]
    exact List.getLast?_concat _

/-- C7 witness: immediate clean exit. -/
theorem c7_witness :
    wait_or_cancel ⟨true, fun _ => some 0, fun _ => false, some "out", 0, false⟩ 1 "List" "m" =
      some ((0, some "out"),
        SinkEvent.create "List" "" :: (List.replicate 0 (SinkEvent.update 50 "m") ++
          [SinkEvent.update 100 "Complete!", SinkEvent.close]), false) ∧
    ((SinkEvent.create "List" "" :: (List.replicate 0 (SinkEvent.update 50 "m") ++
        [SinkEvent.update 100 "Complete!", SinkEvent.close])).filter isUpdateEv).getLast? =
      some (SinkEvent.update 100 "Complete!") :=
  wait_or_cancel_success_complete ⟨true, fun _ => some 0, fun _ => false, some "out", 0,
    false⟩ 1 0 "out" "List" "m" rfl (fun j hj => absurd hj (Nat.not_lt_zero j)) rfl rfl rfl
    Nat.zero_lt_one

/-- C5: in any completed pairing poll loop, the 50% updates in the event
trace are exactly `pinEvents`: one single PIN-disclosure update, at 50%,
whose message embeds the digit group extracted from the earliest
accumulated buffer that matched the PIN pattern (first match sets the
`codeFlag` latch), and no update at all when no scanned buffer matched —
in particular no duplicate disclosure on later polls, and the guarantee
holds also when the PIN line arrives split across several non-blocking
reads. -/
theorem pair_pin_disclosure_once (env : PEnv) (fuel : Nat) (ex : PExit)
    (hp : env.procPresent = true)
    (hl : pairLoop env fuel 0 ⟨"", false, []⟩ = some ex) :
    pair env fuel = some (pairAssemble env ex) ∧
    (pairAssemble env ex).filter isUpd50 = pinEvents env (pexitTick ex) := by
  have hinv := pairLoop_invariant_start env fuel ex hl
  constructor
  · unfold pair
    rw [if_pos hp, hl]
    rfl
  · unfold pairAssemble
    rw [hinv.2.2]
    by_cases h1 : env.cancel (pexitPostIdx ex) = false ∧ pexitCode ex = some 0 <;>
      by_cases h2 : strContains alreadyPairedLit (pexitState ex).buf = true <;>
        cases h3 : firstMatch env (pexitTick ex) <;>
          simp [h1, h2, h3, pinEvents, isUpd50, apEvent, List.filter_append, List.filter]

/-- C5 witness: on `c5env` the PIN line is delivered split mid-sentence
across the reads of iterations 0 and 1; the trace contains exactly one
50% disclosure update, embedding the digits 4821. -/
theorem c5_witness :
    pair c5env 5 = some (pairAssemble c5env c5exit) ∧
    (pairAssemble c5env c5exit).filter isUpd50 = pinEvents c5env (pexitTick c5exit) :=
  pair_pin_disclosure_once c5env 5 c5exit rfl (by decide)

/-- C8: when the pairing process exits with a non-zero code and the
accumulated output contains the already-paired line, the session shows
the informational already-paired dialog, and that dialog is the only
modal dialog in the whole trace (no hard-failure dialog is shown). -/
theorem pair_already_paired_state (env : PEnv) (fuel k : Nat) (c : Int) (st : PState)
    (hp : env.procPresent = true)
    (hl : pairLoop env fuel 0 ⟨"", false, []⟩ = some (PExit.exited k c st))
    (hc : c ≠ 0)
    (hap : strContains alreadyPairedLit st.buf = true) :
    pair env fuel = some (pairAssemble env (PExit.exited k c st)) ∧
    apEvent ∈ pairAssemble env (PExit.exited k c st) ∧
    ∀ a b, SinkEvent.okDialog a b ∈ pairAssemble env (PExit.exited k c st) →
      SinkEvent.okDialog a b = apEvent := by
  have hinv := pairLoop_invariant_start env fuel (PExit.exited k c st) hl
  have hev : st.events = pinEvents env k := hinv.2.2
  refine ⟨?_, ?_, ?_⟩
  · unfold pair
    rw [if_pos hp, hl]
    rfl
  · simp [pairAssemble, pexitState, hap]
  · intro a b hmem
    have hbranch : ¬(env.cancel (pexitPostIdx (PExit.exited k c st)) = false ∧
        pexitCode (PExit.exited k c st) = some 0) := by
      rintro ⟨-, h⟩
      simp [pexitCode] at h
      exact hc h
    rw [pairAssemble.eq_def] at hmem
    simp only [pexitState, if_neg hbranch, hap, if_pos] at hmem
    rw [hev] at hmem
    cases h3 : firstMatch env k <;>
      simp [h3, pinEvents, apEvent, List.mem_append, List.mem_cons] at hmem ⊢ <;>
        tauto

/-- C8 witness: on `c8env` the process exits with code 1 after printing
the already-paired line; the informational dialog is in the trace. -/
theorem c8_witness :
    pair c8env 5 = some (pairAssemble c8env (PExit.exited 1 1 c8state)) ∧
    apEvent ∈ pairAssemble c8env (PExit.exited 1 1 c8state) ∧
    ∀ a b, SinkEvent.okDialog a b ∈ pairAssemble c8env (PExit.exited 1 1 c8state) →
      SinkEvent.okDialog a b = apEvent :=
  pair_already_paired_state c8env 5 1 1 c8state rfl (by decide) (by decide) (by decide)

/-- C10: the already-paired informational dialog is shown whenever the
accumulated output contains the already-paired line, unconditionally on
the exit path: the hypothesis places no constraint on the exit kind, the
exit code or the cancellation samples, so the dialog also appears after a
clean exit with code 0 and after a user cancellation. -/
theorem pair_already_paired_any_exit (env : PEnv) (fuel : Nat) (ex : PExit)
    (hp : env.procPresent = true)
    (hl : pairLoop env fuel 0 ⟨"", false, []⟩ = some ex)
    (hap : strContains alreadyPairedLit (pexitState ex).buf = true) :
    pair env fuel = some (pairAssemble env ex) ∧ apEvent ∈ pairAssemble env ex := by
  constructor
  · unfold pair
    rw [if_pos hp, hl]
    rfl
  · simp [pairAssemble, hap]

/-- C10 witness: on `c10env` the process exits cleanly with code 0 and
the already-paired dialog still appears in the trace. -/
theorem c10_witness :
    pair c10env 5 = some (pairAssemble c10env (PExit.exited 1 0 c10state)) ∧
    apEvent ∈ pairAssemble c10env (PExit.exited 1 0 c10state) :=
  pair_already_paired_any_exit c10env 5 (PExit.exited 1 0 c10state) rfl (by decide)
    (by decide)

/-- C2 counterexample: with a listing that contains the container name,
`stop_old_container` issues the stop command only through the
asynchronous `spawn` (`subprocess.Popen`, returned object discarded,
never waited on); no blocking (`check_output`-style, run-to-completion)
execution of the stop command occurs anywhere in the trace, so the stop
does not run synchronously to completion before the function returns. -/
theorem c2_counterexample :
    stop_old_container ⟨Except.ok "CONTAINER ID  IMAGE  moonlight_pair  Up 2 minutes"⟩
        "moonlight_pair" =
      [CmdEvent.runBlocking psCmd, CmdEvent.spawn (stopCmd "moonlight_pair") true] ∧
    CmdEvent.runBlocking (stopCmd "moonlight_pair") ∉
      stop_old_container ⟨Except.ok "CONTAINER ID  IMAGE  moonlight_pair  Up 2 minutes"⟩
        "moonlight_pair" := by
  decide

/-- C2 (amended): for every container name present in a truthy listing,
`stop_old_container` issues exactly one stop command for it, but the stop
is spawned asynchronously (`Popen`, not waited on): the function returns
without waiting for the stop to complete or be acknowledged. -/
theorem stop_old_container_spawns_once (env : DockerEnv) (container check : String)
    (h : env.psResult = Except.ok check) (hne : check ≠ "")
    (hin : strContains container check = true) :
    stop_old_container env container =
      [CmdEvent.runBlocking psCmd, CmdEvent.spawn (stopCmd container) true] := by
  unfold stop_old_container
  simp [h, hne, hin]

/-- C2 witness: the amended theorem applied to a concrete listing. -/
theorem c2_witness :
    stop_old_container ⟨Except.ok "abc moonlight_list xyz"⟩ "moonlight_list" =
      [CmdEvent.runBlocking psCmd, CmdEvent.spawn (stopCmd "moonlight_list") true] :=
  stop_old_container_spawns_once ⟨Except.ok "abc moonlight_list xyz"⟩ "moonlight_list"
    "abc moonlight_list xyz" rfl (by decide) (by decide)

/-- Auxiliary characterization: the tail matcher accepts exactly the
lists of the form digits-then-period-then-anything (digit run possibly
empty). -/
theorem matchDigitsDotAux_iff : ∀ l : List Char,
    matchDigitsDotAux l = true ↔
      ∃ ds rest, l = ds ++ '.' :: rest ∧ ∀ c ∈ ds, c.isDigit = true := by
  intro l
  induction l with
  | nil =>
      constructor
      · intro h
        exact absurd h (by simp [matchDigitsDotAux])
      · rintro ⟨ds, rest, h, -⟩
        cases ds <;> simp at h
  | cons c cs ih =>
      by_cases hd : c.isDigit = true
      · rw [matchDigitsDotAux, if_pos hd, ih]
        constructor
        · rintro ⟨ds, rest, hcs, hds⟩
          refine ⟨c :: ds, rest, by rw [hcs]; rfl, ?_⟩
          intro x hx
          rcases List.mem_cons.mp hx with h | h
          · rw [h]; exact hd
          · exact hds x h
        · rintro ⟨ds, rest, hl, hds⟩
          cases ds with
          | nil =>
              simp only [List.nil_append] at hl
              have : c = '.' := (List.cons.injEq _ _ _ _ ▸ hl).1
              rw [this] at hd
              exact absurd hd (by decide)
          | cons d ds =>
              have h1 : c = d := (List.cons.injEq _ _ _ _ ▸ hl).1
              have h2 : cs = ds ++ '.' :: rest := (List.cons.injEq _ _ _ _ ▸ hl).2
              exact ⟨ds, rest, h2, fun x hx => hds x (List.mem_cons_of_mem _ hx)⟩
      · rw [matchDigitsDotAux, if_neg hd]
        constructor
        · intro h
          have hc : c = '.' := eq_of_beq h
          exact ⟨[], cs, by rw [hc]; rfl, by intro x hx; simp at hx⟩
        · rintro ⟨ds, rest, hl, hds⟩
          cases ds with
          | nil =>
              have : c = '.' := (List.cons.injEq _ _ _ _ ▸ hl).1
              rw [this]
              decide
          | cons d ds =>
              have h1 : c = d := (List.cons.injEq _ _ _ _ ▸ hl).1
              exact absurd (h1 ▸ hds d (by simp)) hd

/-- Characterization of the source line filter: a line passes
`re.search('^\d+\.', line)` iff it starts with a non-empty digit run
immediately followed by a period. -/
theorem matchGameLine_iff (s : String) : matchGameLine s = true ↔ specGameLine s := by
  unfold matchGameLine specGameLine
  cases hdata : s.data with
  | nil =>
      constructor
      · intro h
        rw [matchDigitsDot] at h
        exact absurd h (by simp)
      · rintro ⟨ds, rest, h, hne, -⟩
        cases ds with
        | nil => exact absurd rfl hne
        | cons d ds => simp at h
  | cons c cs =>
      rw [matchDigitsDot, Bool.and_eq_true, matchDigitsDotAux_iff]
      constructor
      · rintro ⟨hc, ds, rest, hcs, hds⟩
        refine ⟨c :: ds, rest, by rw [hcs]; rfl, by simp, ?_⟩
        intro x hx
        rcases List.mem_cons.mp hx with h | h
        · rw [h]; exact hc
        · exact hds x h
      · rintro ⟨ds, rest, hl, hne, hds⟩
        cases ds with
        | nil => exact absurd rfl hne
        | cons d ds =>
            have h1 : c = d := (List.cons.injEq _ _ _ _ ▸ hl).1
            have h2 : cs = ds ++ '.' :: rest := (List.cons.injEq _ _ _ _ ▸ hl).2
            refine ⟨h1 ▸ hds d (by simp), ds, rest, h2, ?_⟩
            intro x hx
            exact hds x (List.mem_cons_of_mem _ hx)

/-- C9: the game-list filter keeps exactly the lines that begin with an
integer (non-empty digit run) followed by a period, and on the spec's
example input it yields exactly the two game lines. -/
theorem load_installed_games_filter_correct :
    (∀ lines s, s ∈ load_installed_games_filter lines ↔ s ∈ lines ∧ specGameLine s) ∧
    load_installed_games_filter
        ["====", "Searching...", "1. MarioKart8", "2. Dolphin", "garbage"] =
      ["1. MarioKart8", "2. Dolphin"] := by
  constructor
  · intro lines s
    unfold load_installed_games_filter
    rw [List.mem_filter, matchGameLine_iff]
  · decide

/-- C9 witness: the characterization applied at a concrete line and list. -/
theorem c9_witness :
    "1. MarioKart8" ∈ load_installed_games_filter ["====", "1. MarioKart8"] :=
  (load_installed_games_filter_correct.1 ["====", "1. MarioKart8"] "1. MarioKart8").mpr
    ⟨by decide, ⟨['1'], " MarioKart8".data, by decide, by decide, by decide⟩⟩

end Moonlight
